import Mathlib

/-!
Verification of the markdown live-render synchronization engine.

Shallow embedding of the bidirectional sync engine of the
`defaultMarkdownRender` extension:

* the Preamble (frontmatter) codec of `src/webview/editor.ts`
  (`FRONTMATTER_REGEX`, `extractFrontmatter`, `combineFrontmatter`,
  `normalizeMarkdownForCompare`, `escapeHtml`, the frontmatter renderers);
* the webview-side sync state machine of `src/webview/editor.ts`
  (`markdownUpdated` listener, `sendOutgoingEdit`, `updateEditorContent`,
  `applyPendingUpdate`);
* the host-side controller of `src/markdownEditorProvider.ts`
  (`handleWebviewMessage`, the `onDidChangeTextDocument` handler,
  `updateWebview`) with the `isInternalChange` flag of `SyncManager`.

Strings are modelled as `List Char`; timers are modelled semantically as an
optional absolute deadline (a `setTimeout` whose callback has run is a
consumed deadline; `clearTimeout` + `setTimeout` is overwriting the
deadline).  Wall-clock instants are `Nat` milliseconds.
-/

namespace MarkdownRender

/-- A string, modelled as its character list (JS strings are sequences of
code units; the sources only ever treat them as flat sequences). -/
abbrev Str := List Char

/-! ## JS values produced by `yaml.load`

`extractFrontmatter` inspects the parse result only through JS truthiness
and `typeof parsed !== 'object'`; the renderers additionally distinguish
`null`, `Date`, arrays, plain objects and scalars.  `YamlValue` covers
exactly those observations. -/

/-- A JavaScript value as produced by `yaml.load` and consumed by the
frontmatter code: `undefined`, `null`, booleans, numbers, strings, `Date`
(carrying its ISO-8601 rendering), arrays and plain objects. -/
inductive YamlValue where
  | vUndefined
  | vNull
  | vBool (b : Bool)
  | vNum (n : Int)
  | vStr (s : Str)
  | vDate (iso : Str)
  | vArr (items : List YamlValue)
  | vObj (entries : List (Str × YamlValue))

/-- JS truthiness of a `YamlValue` (`!parsed` in the source negates this).
`undefined`, `null`, `false`, `0` and the empty string are falsy; every
object, array and `Date` is truthy. -/
def YamlValue.jsTruthy : YamlValue → Bool
  | .vUndefined => false
  | .vNull => false
  | .vBool b => b
  | .vNum n => n != 0
  | .vStr s => !s.isEmpty
  | .vDate _ => true
  | .vArr _ => true
  | .vObj _ => true

/-- `typeof v === 'object'` in JS: true for `null`, `Date`, arrays and
plain objects, false for `undefined` and the scalar primitives. -/
def YamlValue.jsTypeofObject : YamlValue → Bool
  | .vUndefined => false
  | .vNull => true
  | .vBool _ => false
  | .vNum _ => false
  | .vStr _ => false
  | .vDate _ => true
  | .vArr _ => true
  | .vObj _ => true

/-! ## A structured-data parser for the fence interior

`yaml.load` comes from the external `js-yaml` package, not from this
repository's sources. -/

/-- Is the character a space or tab (the blank classes used below)? -/
def isBlankChar (c : Char) : Bool := c = ' ' || c = '\t'

/-- Drop leading spaces/tabs. -/
def dropLeadingBlanks (s : Str) : Str := s.dropWhile isBlankChar

/-- Trim spaces and tabs from both ends of a line. -/
def trimBlanks (s : Str) : Str :=
  (dropLeadingBlanks ((dropLeadingBlanks s.reverse)).reverse)

/-- Split a string on `'\n'`, keeping empty segments. -/
def splitLines (s : Str) : List Str :=
  (s.splitOn '\n').map (fun l => if l.getLast? = some '\r' then l.dropLast else l)

/-- Modelled from the spec: the structured parse of the fence interior
(`yaml.load` of the external `js-yaml` library, which is not part of this
repository's sources).  Per the spec, "The interior is parsed as structured
key-value data" and §9 asks for a `tryParseStructured(text) ->
optional(object)` shape.  This model parses the flat `key: value` mapping
subset: every non-blank line must contain a `':'` with a non-empty key
before it; the empty document parses to `undefined` (as `js-yaml` returns
for empty input); any malformed line is a parse error (`Except.error`
models a thrown exception, caught by `extractFrontmatter`'s `try/catch`).
Nested structures, arrays and scalar typing beyond null/string are not
modelled. -/
def yamlLoad (s : Str) : Except Unit YamlValue :=
  let lines := (splitLines s).filter (fun l => !(trimBlanks l).isEmpty)
  if lines.isEmpty then
    .ok .vUndefined
  else do
    let entries ← lines.mapM parseKvLine
    .ok (.vObj entries)
where
  /-- Parse one `key: value` line; empty key or missing colon is an error. -/
  parseKvLine (l : Str) : Except Unit (Str × YamlValue) :=
    let keyPart := l.takeWhile (· ≠ ':')
    let rest := l.dropWhile (· ≠ ':')
    match rest with
    | [] => .error ()          -- no colon on the line
    | _ :: afterColon =>
      let key := trimBlanks keyPart
      if key.isEmpty then .error ()
      else
        let value := trimBlanks afterColon
        .ok (key, if value.isEmpty then .vNull else .vStr value)

/-! ## The frontmatter regex

`FRONTMATTER_REGEX = /^---[ \t]*\r?\n([\s\S]*?)\r?\n---[ \t]*(\r?\n)?/`.

The opener `^---[ \t]*\r?\n` is deterministic (blanks and newline chars are
disjoint, so greedy `[ \t]*` never needs to backtrack).  The lazy interior
`([\s\S]*?)` takes the smallest length at which the closer
`\r?\n---[ \t]*(\r?\n)?` matches; inside the closer, `\r?` and the trailing
`(\r?\n)?` are greedy, preferring `"\r\n"` over `"\n"` over nothing. -/

/-- Length consumed by `\r?\n` at the head of `t` when the remainder must
then start with `"---"`; `none` when the closer's mandatory part fails
here.  (Greedy `\r?`: `"\r\n"` is preferred; bare `"\r"` cannot satisfy the
`\n`, and backtracking to the empty `\r?` then requires a literal `'\n'`.) -/
def closerNewlineLen : Str → Option Nat
  | '\r' :: '\n' :: u => if ['-', '-', '-'].isPrefixOf u then some 2 else none
  | '\n' :: u => if ['-', '-', '-'].isPrefixOf u then some 1 else none
  | _ => none

/-- Length consumed by the optional trailing `(\r?\n)?` (greedy). -/
def optNewlineLen : Str → Nat
  | '\r' :: '\n' :: _ => 2
  | '\n' :: _ => 1
  | _ => 0

/-- Total length of the closer `\r?\n---[ \t]*(\r?\n)?` matching at the
head of `t`, or `none`. -/
def closerLen (t : Str) : Option Nat :=
  match closerNewlineLen t with
  | none => none
  | some nl =>
    let afterMarker := (t.drop nl).drop 3
    let ws := (afterMarker.takeWhile isBlankChar).length
    some (nl + 3 + ws + optNewlineLen (afterMarker.drop ws))

/-- Search of the lazy interior `([\s\S]*?)`: the smallest split of `t`
into `interior ++ closerAndRest` with the closer matching at the split.
Returns `(interiorLen, interiorLen + closerLen)`. -/
def findCloser : Str → Option (Nat × Nat)
  | [] => none
  | t@(_ :: rest) =>
    match closerLen t with
    | some cl => some (0, cl)
    | none =>
      match findCloser rest with
      | some (i, tot) => some (i + 1, tot + 1)
      | none => none

/-- Length consumed by the opener `^---[ \t]*\r?\n` at the head of `s`, or
`none` when the document does not start with a fence line. -/
def openerLen (s : Str) : Option Nat :=
  if ['-', '-', '-'].isPrefixOf s then
    let afterMarker := s.drop 3
    let ws := (afterMarker.takeWhile isBlankChar).length
    match afterMarker.drop ws with
    | '\r' :: '\n' :: _ => some (3 + ws + 2)
    | '\n' :: _ => some (3 + ws + 1)
    | _ => none
  else none

/-- `markdown.match(FRONTMATTER_REGEX)`: `none` when the anchored regex
does not match, otherwise `some (group1, match0)` — the interior capture
and the whole matched span. -/
def frontmatterMatch (s : Str) : Option (Str × Str) :=
  match openerLen s with
  | none => none
  | some op =>
    match findCloser (s.drop op) with
    | none => none
    | some (interiorLen, totalLen) =>
      some ((s.drop op).take interiorLen, s.take (op + totalLen))

/-- Result record of `extractFrontmatter` (`FrontmatterExtractionResult`
in the source). -/
structure FrontmatterExtractionResult where
  frontmatter : Option Str
  rawBlock : Option Str
  content : Str
  deriving Repr, DecidableEq

/-- `extractFrontmatter` (editor.ts:110–131): match the anchored fence
regex; on no match, or when the interior's structured parse throws
(`try/catch`) or yields a falsy / non-`object` value, return
`{null, null, markdown}`; otherwise return the interior, the whole matched
block, and the remainder of the document. -/
def extractFrontmatter (markdown : Str) : FrontmatterExtractionResult :=
  match frontmatterMatch markdown with
  | none => ⟨none, none, markdown⟩
  | some (frontmatterText, matched) =>
    match yamlLoad frontmatterText with
    | .error _ => ⟨none, none, markdown⟩
    | .ok parsed =>
      if !(parsed.jsTruthy && parsed.jsTypeofObject) then
        ⟨none, none, markdown⟩
      else
        ⟨some frontmatterText, some matched, markdown.drop matched.length⟩

/-- `combineFrontmatter` (editor.ts:133–138): `!rawBlock` in JS is true
for `null` and for the empty string, so both yield the bare content. -/
def combineFrontmatter (rawBlock : Option Str) (content : Str) : Str :=
  match rawBlock with
  | none => content
  | some rb => if rb.isEmpty then content else rb ++ content

/-- `normalizeMarkdownForCompare` (editor.ts:105–108):
`markdown.replace(/\r\n/g, '\n')` — global left-to-right replacement of
CRLF pairs by LF, and nothing else. -/
def normalizeMarkdownForCompare : Str → Str
  | [] => []
  | '\r' :: '\n' :: rest => '\n' :: normalizeMarkdownForCompare rest
  | c :: rest => c :: normalizeMarkdownForCompare rest

/-! ## HTML escaping and the frontmatter display renderers -/

/-- The double-quote character (codepoint 34). -/
def quoteChar : Char := Char.ofNat 34

/-- The apostrophe character (codepoint 39). -/
def aposChar : Char := Char.ofNat 39

/-- `s.replace(/c/g, repl)` for a single-character pattern: every
occurrence of `pat` is replaced by `repl`, left to right, and the
replacement text is not rescanned by the same pass. -/
def replaceCharAll (pat : Char) (repl : Str) (s : Str) : Str :=
  s.flatMap (fun c => if c = pat then repl else [c])

/-- `escapeHtml` (editor.ts:175–182): five sequential global
single-character replacements, ampersand first. -/
def escapeHtml (input : Str) : Str :=
  replaceCharAll aposChar "&#39;".data
    (replaceCharAll quoteChar "&quot;".data
      (replaceCharAll '>' "&gt;".data
        (replaceCharAll '<' "&lt;".data
          (replaceCharAll '&' "&amp;".data input))))

/-- `isObjectRecord` (editor.ts:140–147): a JS value that is
`typeof 'object'`, non-null, not an array and not a `Date`. -/
def isObjectRecord : YamlValue → Bool
  | .vObj _ => true
  | _ => false

/-- `Array.isArray(value)`. -/
def isJsArray : YamlValue → Bool
  | .vArr _ => true
  | _ => false

/-- `getScalarTypeClass` (editor.ts:149–162). `vArr`/`vObj` fall through
to the `default` branch exactly as a JS array/object would (its `typeof`
is `'object'`, which the `switch` does not list). -/
def getScalarTypeClass : YamlValue → Str
  | .vNull => "is-null".data
  | .vDate _ => "is-date".data
  | .vBool _ => "is-boolean".data
  | .vNum _ => "is-number".data
  | .vStr _ => "is-string".data
  | _ => "is-unknown".data

/-- Does the ISO string end in the midnight suffix `T00:00:00.000Z`? -/
def isMidnightIso (iso : Str) : Bool :=
  "T00:00:00.000Z".data.isSuffixOf iso

/-- `iso.replace(/\.\d{3}Z$/, 'Z')`: strip a trailing `.nnnZ`
milliseconds group down to `Z`. -/
def stripIsoMillis (iso : Str) : Str :=
  match iso.reverse with
  | 'Z' :: d1 :: d2 :: d3 :: '.' :: rest =>
    if d1.isDigit && d2.isDigit && d3.isDigit then ('Z' :: rest).reverse else iso
  | _ => iso

/-- `formatScalar` (editor.ts:164–173).  `String(value)` on the remaining
cases: booleans and numbers print their decimal text; `undefined` prints
`"undefined"`; arrays and plain objects never reach this function from the
renderers (they are routed to the nested renderers first), and are given
the JS `String()` forms `"[object Object]"` / comma-join. -/
def formatScalar : YamlValue → Str
  | .vNull => "null".data
  | .vDate iso => if isMidnightIso iso then iso.take 10 else stripIsoMillis iso
  | .vStr s => s
  | .vBool true => "true".data
  | .vBool false => "false".data
  | .vNum n => (toString n).data
  | .vUndefined => "undefined".data
  | .vObj _ => "[object Object]".data
  | .vArr _ => []

/-- `TAG_LIKE_KEYS` (editor.ts:184) membership: `tags` or `aliases`. -/
def isTagLikeKey (key : Str) : Bool :=
  key = "tags".data || key = "aliases".data

/-- `isTagLikeArray` (editor.ts:186–189): tag-like key, array value, all
items strings.  Returns the chip strings when it holds. -/
def tagLikeStrings (key : Str) : YamlValue → Option (List Str)
  | .vArr items =>
    if isTagLikeKey key then
      items.mapM (fun v => match v with | .vStr s => some s | _ => none)
    else none
  | _ => none

/-- `renderFrontmatterScalar` (editor.ts:191–195): one `span` whose
`title` attribute and text are both the escaped scalar text. -/
def renderFrontmatterScalar (value : YamlValue) : Str :=
  let typeClass := getScalarTypeClass value
  let displayValue := escapeHtml (formatScalar value)
  "<span class=\"frontmatter-value frontmatter-scalar ".data ++ typeClass ++
    "\" title=\"".data ++ displayValue ++ "\">".data ++ displayValue ++ "</span>".data

/-- `renderFrontmatterChips` (editor.ts:197–206): every chip text escaped. -/
def renderFrontmatterChips (values : List Str) : Str :=
  if values.isEmpty then
    "<div class=\"frontmatter-chips frontmatter-chips-empty\"></div>".data
  else
    let chips := (values.map (fun v =>
      "<span class=\"frontmatter-chip\">".data ++ escapeHtml v ++ "</span>".data)).flatten
    "<div class=\"frontmatter-chips\">".data ++ chips ++ "</div>".data

/-- The `depth-${Math.min(depth, 6)}` indent class. -/
def indentClass (depth : Nat) : Str :=
  "depth-".data ++ (toString (min depth 6)).data

/-- `keyHtml` of `renderFrontmatterObject`: escaped key plus separator. -/
def renderFrontmatterKeyHtml (key : Str) : Str :=
  "<span class=\"frontmatter-key\">".data ++ escapeHtml key ++
    "</span><span class=\"frontmatter-separator\">:</span>".data

mutual

/-- `renderFrontmatterNode` (editor.ts:268–276): arrays to the array
renderer, plain objects to the object renderer, everything else (null,
dates, scalars) to the scalar renderer. -/
def renderFrontmatterNode : YamlValue → Nat → Str
  | .vArr items, depth => renderFrontmatterArray items depth
  | .vObj entries, depth => renderFrontmatterObject entries depth
  | v, _ => renderFrontmatterScalar v
termination_by v _ => 3 * sizeOf v
decreasing_by all_goals (simp_wf; omega)

/-- `renderFrontmatterArray` (editor.ts:208–224): bulleted rows; nested
values recurse at `depth + 1`, scalars use the scalar renderer; the rows
are joined with the empty string. -/
def renderFrontmatterArray (values : List YamlValue) (depth : Nat) : Str :=
  if values.isEmpty then
    "<div class=\"frontmatter-empty frontmatter-empty-array\">[]</div>".data
  else renderFrontmatterArrayItems values depth
termination_by 3 * sizeOf values + 2
decreasing_by all_goals simp_wf

/-- The `values.map(...).join('')` body of `renderFrontmatterArray` on a
non-empty list. -/
def renderFrontmatterArrayItems : List YamlValue → Nat → Str
  | [], _ => []
  | item :: rest, depth =>
    let itemValue :=
      if isObjectRecord item || isJsArray item then
        renderFrontmatterNode item (depth + 1)
      else renderFrontmatterScalar item
    "<div class=\"frontmatter-array-item ".data ++ indentClass depth ++
      "\">\n        <span class=\"frontmatter-bullet\">-</span>\n        <div class=\"frontmatter-array-value\">".data ++
      itemValue ++ "</div>\n      </div>".data ++
      renderFrontmatterArrayItems rest depth
termination_by values _ => 3 * sizeOf values + 1
decreasing_by all_goals (simp_wf; try omega)

/-- `renderFrontmatterObject` (editor.ts:226–266): key/value rows; the
key is escaped, tag-like string arrays render as chips, nested values
recurse at `depth + 1`, scalars use the scalar renderer. -/
def renderFrontmatterObject (entries : List (Str × YamlValue)) (depth : Nat) : Str :=
  if entries.isEmpty then
    "<div class=\"frontmatter-empty frontmatter-empty-object\">\x7b\x7d</div>".data
  else renderFrontmatterObjectEntries entries depth
termination_by 3 * sizeOf entries + 2
decreasing_by all_goals simp_wf

/-- The `entries.map(...).join('')` body of `renderFrontmatterObject` on a
non-empty list. -/
def renderFrontmatterObjectEntries : List (Str × YamlValue) → Nat → Str
  | [], _ => []
  | (key, value) :: rest, depth =>
    let keyHtml := renderFrontmatterKeyHtml key
    let entryHtml :=
      match tagLikeStrings key value with
      | some chipStrings =>
        "<div class=\"frontmatter-property ".data ++ indentClass depth ++
          "\">\n          <div class=\"frontmatter-row\">\n            <div class=\"frontmatter-key-group\">".data ++
          keyHtml ++
          "</div>\n            <div class=\"frontmatter-value-group\">".data ++
          renderFrontmatterChips chipStrings ++
          "</div>\n          </div>\n        </div>".data
      | none =>
        if isObjectRecord value || isJsArray value then
          "<div class=\"frontmatter-property ".data ++ indentClass depth ++
            "\">\n          <div class=\"frontmatter-row\">\n            <div class=\"frontmatter-key-group\">".data ++
            keyHtml ++
            "</div>\n            <div class=\"frontmatter-value-group\">\n              <div class=\"frontmatter-children\">".data ++
            renderFrontmatterNode value (depth + 1) ++
            "</div>\n            </div>\n          </div>\n        </div>".data
        else
          "<div class=\"frontmatter-property ".data ++ indentClass depth ++
            "\">\n          <div class=\"frontmatter-row\">\n            <div class=\"frontmatter-key-group\">".data ++
            keyHtml ++
            "</div>\n            <div class=\"frontmatter-value-group\">".data ++
            renderFrontmatterScalar value ++
            "</div>\n          </div>\n        </div>".data
    entryHtml ++ renderFrontmatterObjectEntries rest depth
termination_by entries _ => 3 * sizeOf entries + 1
decreasing_by all_goals (simp_wf; try omega)

end

/-! ## The webview-side sync state machine (editor.ts)

The module-level mutable variables of `src/webview/editor.ts` become the
fields of `EditorState`; each event handler and timer callback becomes a
state-transition function.  `mutationCount` is a ghost counter of
rich-editor content mutations (editor creation and `replaceAll` calls) so
that "exactly one rich-editor mutation" can be stated.  The rendered
frontmatter panel, cursor handling and the DOM are outside the model. -/

/-- `UPDATE_DEBOUNCE_MS = 30` (editor.ts:51): inbound debounce window. -/
def UPDATE_DEBOUNCE_MS : Nat := 30

/-- `USER_IDLE_BEFORE_EXTERNAL_APPLY_MS = 150` (editor.ts:52): idle
threshold gating external applies while the user types. -/
def USER_IDLE_BEFORE_EXTERNAL_APPLY_MS : Nat := 150

/-- `OUTGOING_EDIT_DEBOUNCE_MS = 16` (editor.ts:69): outbound debounce
window. -/
def OUTGOING_EDIT_DEBOUNCE_MS : Nat := 16

/-- The module-level state of `src/webview/editor.ts`.  `editorExists`
models `editor !== null`; `editorBody` is the markdown content currently
held by the rich editor; `updateTimer` / `outgoingTimer` are the pending
`setTimeout` deadlines (absolute, ms); `mutationCount` is the ghost
mutation counter. -/
structure EditorState where
  editorExists : Bool
  editorBody : Str
  isUpdatingFromExtension : Bool
  currentVersion : Nat
  pendingUpdate : Option Str
  updateTimer : Option Nat
  lastLocalEditAt : Nat
  currentFrontmatter : Option Str
  currentFrontmatterRawBlock : Option Str
  pendingOutgoingEdit : Option Str
  outgoingTimer : Option Nat
  lastKnownMarkdown : Str
  mutationCount : Nat
  deriving DecidableEq, Repr

/-- A message posted from the webview to the extension host
(`vscode.postMessage`). -/
inductive WebviewOutMsg where
  | edit (content : Str)
  | ready
  deriving DecidableEq, Repr

/-- `sanitizeOutgoingMarkdown` (editor.ts:363–371): if the rich editor's
output unexpectedly carries a frontmatter block, strip it before
recombination (`!extracted.rawBlock` is JS-falsy for `null` and `""`). -/
def sanitizeOutgoingMarkdown (markdown : Str) : Str :=
  let extracted := extractFrontmatter markdown
  match extracted.rawBlock with
  | none => markdown
  | some rb => if rb.isEmpty then markdown else extracted.content

/-- `applyFrontmatterStateFromContent` (editor.ts:373–379): re-extract the
frontmatter, store the raw block and interior in the session state, and
return the body.  (`renderFrontmatter` only mutates the display panel.) -/
def applyFrontmatterStateFromContent (markdown : Str) (s : EditorState) :
    EditorState × Str :=
  let extracted := extractFrontmatter markdown
  ({ s with currentFrontmatterRawBlock := extracted.rawBlock,
            currentFrontmatter := extracted.frontmatter },
   extracted.content)

/-- `ensureNoFrontmatterInEditorContent` (editor.ts:350–361): defensive
re-strip before text reaches the rich editor (`content.startsWith('---')`,
then a truthiness test on the extracted raw block). -/
def ensureNoFrontmatterInEditorContent (content : Str) : Str :=
  if !(['-', '-', '-'].isPrefixOf content) then content
  else
    let extracted := extractFrontmatter content
    match extracted.rawBlock with
    | none => content
    | some rb => if rb.isEmpty then content else extracted.content

/-- `sendOutgoingEdit` (editor.ts:381–395): overwrite the pending outbound
slot and reset the single outbound timer
(`clearTimeout` + `setTimeout(…, OUTGOING_EDIT_DEBOUNCE_MS)`). -/
def sendOutgoingEdit (now : Nat) (markdown : Str) (s : EditorState) : EditorState :=
  { s with pendingOutgoingEdit := some markdown,
           outgoingTimer := some (now + OUTGOING_EDIT_DEBOUNCE_MS) }

/-- The outbound timer's callback (editor.ts:386–394): when it fires, a
non-null pending content is posted as one `edit` message and the slot is
cleared; the fired deadline is consumed. -/
def fireOutgoingEditTimer (s : EditorState) : EditorState × List WebviewOutMsg :=
  let s := { s with outgoingTimer := none }
  match s.pendingOutgoingEdit with
  | some c => ({ s with pendingOutgoingEdit := none }, [.edit c])
  | none => (s, [])

/-- The `markdownUpdated` listener (editor.ts:1005–1013): only when the
applying-external-update flag is clear and the markdown actually changed,
record the local-edit timestamp, defensively strip any frontmatter-like
block from the editor output, recombine with the cached raw block, update
the markdown cache and schedule the outbound edit. -/
def markdownUpdated (now : Nat) (markdown prevMarkdown : Str) (s : EditorState) :
    EditorState :=
  if s.isUpdatingFromExtension = false ∧ markdown ≠ prevMarkdown then
    let s := { s with lastLocalEditAt := now }
    let safeMarkdown := sanitizeOutgoingMarkdown markdown
    let fullMarkdown := combineFrontmatter s.currentFrontmatterRawBlock safeMarkdown
    let s := { s with lastKnownMarkdown := fullMarkdown }
    sendOutgoingEdit now fullMarkdown s
  else s

/-- `initializeEditor` (editor.ts:992–1025): extract and render the
frontmatter, defensively strip the body, cache the full markdown, and
create the rich editor holding the body (one content mutation). -/
def initializeEditor (content : Str) (s : EditorState) : EditorState :=
  let (s, editorContent) := applyFrontmatterStateFromContent content s
  let safeEditorContent := ensureNoFrontmatterInEditorContent editorContent
  let s := { s with lastKnownMarkdown := content }
  { s with editorExists := true, editorBody := safeEditorContent,
           mutationCount := s.mutationCount + 1 }

/-- `updateEditorContent` (editor.ts:1106–1122): first inbound content
initializes the editor; afterwards each inbound content overwrites the
single pending-inbound slot and resets the inbound debounce timer. -/
def updateEditorContent (now : Nat) (content : Str) (s : EditorState) : EditorState :=
  if s.editorExists = false then initializeEditor content s
  else
    { s with pendingUpdate := some content,
             updateTimer := some (now + UPDATE_DEBOUNCE_MS) }

/-- `applyPendingUpdate` (editor.ts:1124–1189), run as the inbound timer's
callback (the fired deadline is consumed).  Guard: no editor or no pending
content returns immediately.  Typing priority: if the elapsed time since
the last local edit is below the idle threshold, reschedule for exactly
the remaining idle time, leaving the pending slot untouched.  Commit:
consume the slot; skip when the CRLF-normalized content equals the
CRLF-normalized cache (the source's length test is subsumed by equality);
otherwise set the applying-external flag, re-extract the frontmatter,
defensively strip the body, replace the rich-editor content (one
mutation), update the cache and clear the flag.  (Selection save/restore
touches only the cursor; the `replaceAll`-throws fallback of the external
editor library is not modelled.) -/
def applyPendingUpdate (now : Nat) (s : EditorState) : EditorState :=
  let s := { s with updateTimer := none }
  if s.editorExists = false then s
  else
    match s.pendingUpdate with
    | none => s
    | some fullContent =>
      let msSinceLocalEdit := now - s.lastLocalEditAt
      if msSinceLocalEdit < USER_IDLE_BEFORE_EXTERNAL_APPLY_MS then
        let remaining := USER_IDLE_BEFORE_EXTERNAL_APPLY_MS - msSinceLocalEdit
        { s with updateTimer := some (now + remaining) }
      else
        let s := { s with pendingUpdate := none }
        let normalizedContent := normalizeMarkdownForCompare fullContent
        let normalizedCached := normalizeMarkdownForCompare s.lastKnownMarkdown
        if normalizedContent = normalizedCached then s
        else
          let s := { s with isUpdatingFromExtension := true }
          let (s, editorContent) := applyFrontmatterStateFromContent fullContent s
          let safeEditorContent := ensureNoFrontmatterInEditorContent editorContent
          let s := { s with editorBody := safeEditorContent,
                            mutationCount := s.mutationCount + 1,
                            lastKnownMarkdown := fullContent }
          { s with isUpdatingFromExtension := false }

/-- The webview `message` listener for `update` messages
(editor.ts:1228–1237): record the version, then hand the content to
`updateEditorContent`. -/
def handleUpdateMessage (now : Nat) (content : Str) (version : Nat)
    (s : EditorState) : EditorState :=
  updateEditorContent now content { s with currentVersion := version }

/-! ## The host-side controller (markdownEditorProvider.ts, syncManager.ts)

`HostState` combines the `SyncManager.isInternalChange` flag, the
document buffer, and the provider's `lastSentContent` cache for one open
document.  Each handler returns its synchronous trace of externally
visible actions, so that ordering ("flag set before the buffer replace",
"release only via a deferred task") can be stated. -/

/-- An externally visible step taken by the host-side controller. -/
inductive HostAction where
  | setInternalFlag (value : Bool)
  | bufferReplace (content : Str)
  | scheduleFlagRelease
  | postUpdate (content : Str) (version : Nat)
  deriving DecidableEq, Repr

/-- Host-side per-document state: the `SyncManager.isInternalChange` flag,
the authoritative buffer text and version, the provider's
`lastSentContent` cache, and whether a `setTimeout(…, 0)` release task is
queued. -/
structure HostState where
  isInternalChange : Bool
  documentText : Str
  documentVersion : Nat
  lastSentContent : Option Str
  releaseQueued : Bool
  deriving DecidableEq, Repr

/-- `updateWebview` (markdownEditorProvider.ts:68–84): skip when the
content was already sent, else cache it and post one `update` message. -/
def hostUpdateWebview (s : HostState) : HostState × List HostAction :=
  if s.lastSentContent = some s.documentText then (s, [])
  else
    ({ s with lastSentContent := some s.documentText },
     [.postUpdate s.documentText s.documentVersion])

/-- The `edit` case of `handleWebviewMessage`
(markdownEditorProvider.ts:90–126): set `isInternalChange` before touching
the buffer; skip the replace when the buffer already equals the content;
in all cases record `lastSentContent` and (in the `finally` block) queue
the deferred flag release — the flag is never cleared synchronously. -/
def hostHandleEditMessage (content : Str) (s : HostState) :
    HostState × List HostAction :=
  let s := { s with isInternalChange := true }
  if s.documentText = content then
    ({ s with lastSentContent := some content, releaseQueued := true },
     [.setInternalFlag true, .scheduleFlagRelease])
  else
    ({ s with documentText := content,
              documentVersion := s.documentVersion + 1,
              lastSentContent := some content,
              releaseQueued := true },
     [.setInternalFlag true, .bufferReplace content, .scheduleFlagRelease])

/-- The queued `setTimeout(…, 0)` release task
(markdownEditorProvider.ts:120–122): clears `isInternalChange` one
scheduling tick after the replace. -/
def hostReleaseInternalFlag (s : HostState) : HostState :=
  { s with isInternalChange := false, releaseQueued := false }

/-- The `onDidChangeTextDocument` handler
(markdownEditorProvider.ts:44–53): a change notification pushes an update
into the webview only when `isInternalChange` is clear. -/
def hostOnDidChangeTextDocument (s : HostState) : HostState × List HostAction :=
  if s.isInternalChange then (s, [])
  else hostUpdateWebview s

/-! ## Specification-side definitions used to state the claims -/

/-- The single-pass character translation that `escapeHtml`'s five
sequential passes amount to (proved in `escapeHtml_eq_flatMap`). -/
def escChar (c : Char) : Str :=
  if c = '&' then "&amp;".data
  else if c = '<' then "&lt;".data
  else if c = '>' then "&gt;".data
  else if c = quoteChar then "&quot;".data
  else if c = aposChar then "&#39;".data
  else [c]

/-- Does the string begin with the tail of one of the five entities
`escapeHtml` introduces (`&amp;` `&lt;` `&gt;` `&quot;` `&#39;`)? -/
def startsEntityTail (cs : Str) : Bool :=
  "amp;".data.isPrefixOf cs || "lt;".data.isPrefixOf cs ||
    "gt;".data.isPrefixOf cs || "quot;".data.isPrefixOf cs ||
    "#39;".data.isPrefixOf cs

/-- HTML-injection safety of a text fragment: it contains none of `<`,
`>`, `"`, `'`, and every `&` starts one of the five entities introduced
by `escapeHtml`. -/
def htmlSafeFragment : Str → Bool
  | [] => true
  | c :: cs =>
    if c = '<' ∨ c = '>' ∨ c = quoteChar ∨ c = aposChar then false
    else if c = '&' then startsEntityTail cs && htmlSafeFragment cs
    else htmlSafeFragment cs

/-- Number of occurrences of a character in a string. -/
def countChar (c : Char) (s : Str) : Nat := s.count c

/-- Number of `<` characters contributed by the chips renderer: these all
come from the fixed chip markup, two per chip plus the surrounding
container, never from the chip strings. -/
def chipsOpens (n : Nat) : Nat :=
  if n = 0 then 2 else 2 + 2 * n

mutual

/-- The number of markup tags (counted as `<` characters) of the rendered
tree, computed from the structure alone: constructor shapes, list
lengths and the tag-like-key test — never from the text of any embedded
key, scalar or chip string. -/
def tagOpensNode : YamlValue → Nat
  | .vArr items => tagOpensArray items
  | .vObj entries => tagOpensObject entries
  | _ => 2
termination_by v => 3 * sizeOf v
decreasing_by all_goals (simp_wf; omega)

/-- Tag count of the array renderer. -/
def tagOpensArray (values : List YamlValue) : Nat :=
  if values.isEmpty then 2 else tagOpensArrayItems values
termination_by 3 * sizeOf values + 2
decreasing_by all_goals simp_wf

/-- Tag count of the array items. -/
def tagOpensArrayItems : List YamlValue → Nat
  | [] => 0
  | item :: rest =>
    (if isObjectRecord item || isJsArray item then 6 + tagOpensNode item
     else 6 + 2) + tagOpensArrayItems rest
termination_by values => 3 * sizeOf values + 1
decreasing_by all_goals (simp_wf; try omega)

/-- Tag count of the object renderer. -/
def tagOpensObject (entries : List (Str × YamlValue)) : Nat :=
  if entries.isEmpty then 2 else tagOpensObjectEntries entries
termination_by 3 * sizeOf entries + 2
decreasing_by all_goals simp_wf

/-- Tag count of the object entries. -/
def tagOpensObjectEntries : List (Str × YamlValue) → Nat
  | [] => 0
  | (key, value) :: rest =>
    (match tagLikeStrings key value with
     | some chipStrings => 12 + chipsOpens chipStrings.length
     | none =>
       if isObjectRecord value || isJsArray value then 14 + tagOpensNode value
       else 12 + 2) + tagOpensObjectEntries rest
termination_by entries => 3 * sizeOf entries + 1
decreasing_by all_goals (simp_wf; try omega)

end

/-- A concrete editor-session state: editor created, body `"Hello"`,
cached markdown `"Hello"`, no pending work. -/
def sampleEditorState : EditorState :=
  { editorExists := true, editorBody := "Hello".data,
    isUpdatingFromExtension := false, currentVersion := 1,
    pendingUpdate := none, updateTimer := none, lastLocalEditAt := 0,
    currentFrontmatter := none, currentFrontmatterRawBlock := none,
    pendingOutgoingEdit := none, outgoingTimer := none,
    lastKnownMarkdown := "Hello".data, mutationCount := 1 }

/-- A concrete host-controller state: flag clear, buffer `"Hello"`. -/
def sampleHostState : HostState :=
  { isInternalChange := false, documentText := "Hello".data,
    documentVersion := 3, lastSentContent := some "Hello".data,
    releaseQueued := false }

/-! ## Helper lemmas -/

/-- Splitting a list at the length of a clipped `take` reassembles it. -/
theorem take_append_drop_len (n : Nat) (s : Str) :
    s.take n ++ s.drop (s.take n).length = s := by
  rcases le_or_lt n s.length with h | h
  · rw [List.length_take, Nat.min_eq_left h, List.take_append_drop]
  · rw [List.take_of_length_le (Nat.le_of_lt h)]
    simp

/-- A successful closer match consumes at least one character. -/
theorem closerLen_pos {t : Str} {cl : Nat} (h : closerLen t = some cl) :
    1 ≤ cl := by
  simp only [closerLen] at h
  rcases hnl : closerNewlineLen t with _ | nl <;> rw [hnl] at h
  · simp at h
  · simp only [Option.some.injEq] at h
    omega

/-- A successful lazy-interior search consumes at least one character. -/
theorem findCloser_tot_pos :
    ∀ {t : Str} {i tot : Nat}, findCloser t = some (i, tot) → 1 ≤ tot := by
  intro t
  induction t with
  | nil => intro i tot h; simp [findCloser] at h
  | cons c rest ih =>
    intro i tot h
    rw [findCloser] at h
    rcases hcl : closerLen (c :: rest) with _ | cl <;> rw [hcl] at h
    · rcases hfc : findCloser rest with _ | ⟨i2, tot2⟩ <;> rw [hfc] at h
      · simp at h
      · simp only [Option.some.injEq, Prod.mk.injEq] at h
        omega
    · simp only [Option.some.injEq, Prod.mk.injEq] at h
      have := closerLen_pos hcl
      omega

/-- Whenever the full regex matches, the whole match is a positive-length
clipped prefix of the document. -/
theorem frontmatterMatch_whole {d fm whole : Str}
    (h : frontmatterMatch d = some (fm, whole)) :
    ∃ m, 1 ≤ m ∧ whole = d.take m ∧ d ≠ [] := by
  have hd : d ≠ [] := by
    intro hnil
    subst hnil
    rw [show frontmatterMatch [] = none from rfl] at h
    exact Option.noConfusion h
  unfold frontmatterMatch at h
  rcases hop : openerLen d with _ | op <;> rw [hop] at h
  · exact Option.noConfusion h
  · simp only at h
    rcases hfc : findCloser (d.drop op) with _ | ⟨il, tot⟩ <;> rw [hfc] at h
    · exact Option.noConfusion h
    · simp only [Option.some.injEq, Prod.mk.injEq] at h
      have htot := findCloser_tot_pos hfc
      exact ⟨op + tot, by omega, h.2.symm, hd⟩

/-- A positive-length clipped prefix of a non-empty list is non-empty. -/
theorem take_ne_nil {m : Nat} {s : Str} (hm : 1 ≤ m) (hs : s ≠ []) :
    s.take m ≠ [] := by
  cases s with
  | nil => exact absurd rfl hs
  | cons c t => cases m with
    | zero => omega
    | succ k => simp

/-- Inversion for `extractFrontmatter`: either the fall-through record, or
a successful regex match with the content being the remainder past the
whole match. -/
theorem extractFrontmatter_cases (d : Str) :
    extractFrontmatter d = ⟨none, none, d⟩ ∨
    ∃ fm whole v, frontmatterMatch d = some (fm, whole) ∧
      yamlLoad fm = .ok v ∧ (v.jsTruthy && v.jsTypeofObject) = true ∧
      extractFrontmatter d = ⟨some fm, some whole, d.drop whole.length⟩ := by
  rcases hm : frontmatterMatch d with _ | ⟨fm, whole⟩
  · left
    simp [extractFrontmatter, hm]
  · rcases hy : yamlLoad fm with e | v
    · left
      simp [extractFrontmatter, hm, hy]
    · by_cases hv : (v.jsTruthy && v.jsTypeofObject) = true
      · right
        refine ⟨fm, whole, v, rfl, hy, hv, ?_⟩
        simp [extractFrontmatter, hm, hy, hv]
      · left
        have hvf : (v.jsTruthy && v.jsTypeofObject) = false := Bool.eq_false_iff.mpr hv
        simp [extractFrontmatter, hm, hy, hvf]

/-- Unconditional extract/combine round trip: on every document the codec
either matches a prefix block (and the remainder is exactly the rest of
the document) or passes the document through unchanged. -/
theorem extract_combine_roundtrip (d : Str) :
    combineFrontmatter (extractFrontmatter d).rawBlock (extractFrontmatter d).content = d := by
  rcases extractFrontmatter_cases d with hcase | ⟨fm, whole, v, hm, _, _, hcase⟩
  · rw [hcase]
    rfl
  · rw [hcase]
    obtain ⟨m, hm1, hwhole, hd⟩ := frontmatterMatch_whole hm
    have hne : whole ≠ [] := hwhole ▸ take_ne_nil hm1 hd
    show combineFrontmatter (some whole) (d.drop whole.length) = d
    have hcond : ¬(whole.isEmpty = true) := by simpa using hne
    simp only [combineFrontmatter, if_neg hcond]
    rw [hwhole, take_append_drop_len]

/-- C1 — Preamble codec round trip: for every document `d` whose body
does not itself start with the fence marker `---`,
`combineFrontmatter (extractFrontmatter d).rawBlock
(extractFrontmatter d).content` equals `d` exactly, character for
character — the codec never normalizes or reformats the raw block (the
raw block is returned as the untouched matched prefix and concatenation
restores the document byte for byte, whatever its line-ending style or
trailing whitespace inside the block). -/
theorem frontmatter_codec_roundtrip (d : Str)
    (_hbody : (['-', '-', '-'].isPrefixOf (extractFrontmatter d).content) = false) :
    combineFrontmatter (extractFrontmatter d).rawBlock (extractFrontmatter d).content = d :=
  extract_combine_roundtrip d

/-- Witness for C1 at the document `"---\ntitle: Test\n---\nHello"`. -/
theorem frontmatter_codec_roundtrip_witness :
    (['-', '-', '-'].isPrefixOf
        (extractFrontmatter "---\ntitle: Test\n---\nHello".data).content) = false ∧
    combineFrontmatter (extractFrontmatter "---\ntitle: Test\n---\nHello".data).rawBlock
        (extractFrontmatter "---\ntitle: Test\n---\nHello".data).content =
      "---\ntitle: Test\n---\nHello".data :=
  ⟨by decide, frontmatter_codec_roundtrip _ (by decide)⟩

/-- C2 — Non-object preamble fallback: whenever the document begins
with a candidate fenced block (the anchored regex matches) but the
interior's structured parse throws (modelled by `Except.error`, absorbed
by the source's `try/catch`) or yields a falsy or non-`object` value, the
extraction returns `{frontmatter := none, rawBlock := none, content := d}`
unchanged.  `extractFrontmatter` is a total function into
`FrontmatterExtractionResult`: the parse exception is caught inside it and
never propagates to the caller. -/
theorem malformed_frontmatter_fallback (d fm whole : Str)
    (hmatch : frontmatterMatch d = some (fm, whole))
    (hbad : yamlLoad fm = .error () ∨
      ∃ v, yamlLoad fm = .ok v ∧ (v.jsTruthy && v.jsTypeofObject) = false) :
    extractFrontmatter d = ⟨none, none, d⟩ := by
  rcases extractFrontmatter_cases d with h | ⟨fm2, whole2, v2, hm2, hok2, hv2, h⟩
  · exact h
  · exfalso
    rw [hmatch] at hm2
    have hp : (fm, whole) = (fm2, whole2) := by injection hm2
    have hfm : fm2 = fm := (congrArg Prod.fst hp).symm
    subst hfm
    rcases hbad with herr | ⟨v, hok, hv⟩
    · rw [herr] at hok2
      exact Except.noConfusion hok2
    · rw [hok] at hok2
      have hv2eq : v = v2 := by injection hok2
      rw [← hv2eq, hv] at hv2
      exact Bool.noConfusion hv2

/-- Witness for C2 at the malformed document `"---\n: : :\n---\nBody"`
(the interior `": : :"` fails the structured parse). -/
theorem malformed_frontmatter_fallback_witness :
    frontmatterMatch "---\n: : :\n---\nBody".data =
      some (": : :".data, "---\n: : :\n---\n".data) ∧
    yamlLoad ": : :".data = .error () ∧
    extractFrontmatter "---\n: : :\n---\nBody".data =
      ⟨none, none, "---\n: : :\n---\nBody".data⟩ :=
  ⟨by decide, by rfl,
    malformed_frontmatter_fallback _ ": : :".data "---\n: : :\n---\n".data
      (by decide) (Or.inl (by rfl))⟩

/-- C9 — Concrete extraction scenarios:
`extractFrontmatter "---\ntitle: Test\n---\nHello"` yields the raw block
`"---\ntitle: Test\n---\n"` (markers inclusive plus the one trailing line
terminator), content `"Hello"`, and frontmatter text `"title: Test"`
which parses to the object `{title: "Test"}`; and
`extractFrontmatter "plain text"` yields
`{frontmatter := none, rawBlock := none, content := "plain text"}`. -/
theorem extraction_scenarios :
    extractFrontmatter "---\ntitle: Test\n---\nHello".data =
      ⟨some "title: Test".data, some "---\ntitle: Test\n---\n".data, "Hello".data⟩ ∧
    yamlLoad "title: Test".data = .ok (.vObj [("title".data, .vStr "Test".data)]) ∧
    extractFrontmatter "plain text".data = ⟨none, none, "plain text".data⟩ :=
  ⟨by decide, by rfl, by decide⟩

/-- C3 — No-echo: a `markdownUpdated` event fired while the
applying-external-update flag (`isUpdatingFromExtension`) is set, and a
`markdownUpdated` event whose markdown equals the previous markdown, is
ignored: the session state is returned unchanged, so in particular no
pending outbound content is stored and no outbound timer is scheduled,
and therefore no `edit` message can result from the event (in this model
an `edit` message is only ever emitted by the outbound timer firing on a
pending slot that some event stored). -/
theorem no_echo_markdownUpdated (now : Nat) (markdown prevMarkdown : Str)
    (s : EditorState)
    (h : s.isUpdatingFromExtension = true ∨ markdown = prevMarkdown) :
    markdownUpdated now markdown prevMarkdown s = s := by
  unfold markdownUpdated
  rcases h with hflag | heq
  · rw [if_neg]
    rintro ⟨h1, -⟩
    rw [hflag] at h1
    exact Bool.noConfusion h1
  · rw [if_neg]
    rintro ⟨-, h2⟩
    exact h2 heq

/-- Witness for C3: a concrete session with the flag set ignores a
content-changing event. -/
theorem no_echo_markdownUpdated_witness :
    ({ sampleEditorState with isUpdatingFromExtension := true
        }.isUpdatingFromExtension = true ∨ "ab".data = "a".data) ∧
    markdownUpdated 7 "ab".data "a".data
        { sampleEditorState with isUpdatingFromExtension := true } =
      { sampleEditorState with isUpdatingFromExtension := true } :=
  ⟨Or.inl rfl, no_echo_markdownUpdated 7 "ab".data "a".data
    { sampleEditorState with isUpdatingFromExtension := true } (Or.inl rfl)⟩

/-- C4 — Host-side echo flag lifecycle: handling an outgoing `edit`
message (1) leaves `isInternalChange` set at the end of the synchronous
handler, with the deferred release task queued; (2) produces a trace in
which `setInternalFlag true` precedes the buffer replace (when one
happens at all), and which contains no synchronous flag release; (3) only
the queued deferred task (`hostReleaseInternalFlag`, the
`setTimeout(…, 0)` callback) clears the flag; and (4) while
`isInternalChange` is true, a document-change notification pushes no
`update` message to the webview and changes nothing. -/
theorem host_internal_flag_lifecycle (s : HostState) (content : Str) :
    (hostHandleEditMessage content s).1.isInternalChange = true ∧
    (hostHandleEditMessage content s).1.releaseQueued = true ∧
    ((hostHandleEditMessage content s).2 =
        [.setInternalFlag true, .scheduleFlagRelease] ∨
      (hostHandleEditMessage content s).2 =
        [.setInternalFlag true, .bufferReplace content, .scheduleFlagRelease]) ∧
    HostAction.setInternalFlag false ∉ (hostHandleEditMessage content s).2 ∧
    (hostReleaseInternalFlag (hostHandleEditMessage content s).1).isInternalChange
      = false ∧
    (∀ s2 : HostState,
      hostOnDidChangeTextDocument { s2 with isInternalChange := true } =
        ({ s2 with isInternalChange := true }, [])) := by
  unfold hostHandleEditMessage hostReleaseInternalFlag hostOnDidChangeTextDocument
  by_cases hEq : s.documentText = content <;> simp [hEq]


/-- A live editor makes `updateEditorContent` pure slot-and-timer
overwriting. -/
theorem updateEditorContent_live (now : Nat) (content : Str) (s : EditorState)
    (hex : s.editorExists = true) :
    updateEditorContent now content s =
      { s with pendingUpdate := some content,
               updateTimer := some (now + UPDATE_DEBOUNCE_MS) } := by
  simp [updateEditorContent, hex]

/-- Typing-deferral branch of `applyPendingUpdate`: with the user active,
only the inbound timer is rescheduled. -/
theorem applyPendingUpdate_typing (now : Nat) (c : Str) (s : EditorState)
    (hex : s.editorExists = true) (hpend : s.pendingUpdate = some c)
    (hlt : now - s.lastLocalEditAt < USER_IDLE_BEFORE_EXTERNAL_APPLY_MS) :
    applyPendingUpdate now s =
      { s with updateTimer := some (now +
          (USER_IDLE_BEFORE_EXTERNAL_APPLY_MS - (now - s.lastLocalEditAt))) } := by
  unfold applyPendingUpdate
  simp [hex, hpend, hlt]

/-- Skip branch of `applyPendingUpdate`: quiescent user, but the
normalized pending content equals the normalized cache — the slot is
consumed with no other change. -/
theorem applyPendingUpdate_skip (now : Nat) (c : Str) (s : EditorState)
    (hex : s.editorExists = true) (hpend : s.pendingUpdate = some c)
    (hidle : ¬(now - s.lastLocalEditAt < USER_IDLE_BEFORE_EXTERNAL_APPLY_MS))
    (heq : normalizeMarkdownForCompare c = normalizeMarkdownForCompare s.lastKnownMarkdown) :
    applyPendingUpdate now s = { s with pendingUpdate := none, updateTimer := none } := by
  unfold applyPendingUpdate
  simp [hex, hpend, hidle, heq]

/-- Commit branch of `applyPendingUpdate`: quiescent user and genuinely
new content — one rich-editor mutation, frontmatter state re-extracted,
cache updated, flag restored to clear. -/
theorem applyPendingUpdate_commit (now : Nat) (c : Str) (s : EditorState)
    (hex : s.editorExists = true) (hpend : s.pendingUpdate = some c)
    (hidle : ¬(now - s.lastLocalEditAt < USER_IDLE_BEFORE_EXTERNAL_APPLY_MS))
    (hne : normalizeMarkdownForCompare c ≠ normalizeMarkdownForCompare s.lastKnownMarkdown) :
    applyPendingUpdate now s =
      { s with pendingUpdate := none, updateTimer := none,
               isUpdatingFromExtension := false,
               currentFrontmatterRawBlock := (extractFrontmatter c).rawBlock,
               currentFrontmatter := (extractFrontmatter c).frontmatter,
               editorBody := ensureNoFrontmatterInEditorContent (extractFrontmatter c).content,
               mutationCount := s.mutationCount + 1,
               lastKnownMarkdown := c } := by
  unfold applyPendingUpdate applyFrontmatterStateFromContent
  simp [hex, hpend, hidle, hne]

/-- A fired inbound timer with an empty pending slot does nothing. -/
theorem applyPendingUpdate_noPending (now : Nat) (s : EditorState)
    (hpend : s.pendingUpdate = none) :
    applyPendingUpdate now s = { s with updateTimer := none } := by
  unfold applyPendingUpdate
  by_cases hex : s.editorExists = false <;> simp [hex, hpend]

/-- C5 — Idempotence of apply: delivering the same content `c` twice
in a row (each delivery stores it in the pending slot, each timer fire
commits with the user quiescent) performs at most one rich-editor
mutation — exactly one when `c` genuinely differs from the cache — and
the second apply is a complete no-op: at commit time the pending content
and the cached last-applied content are compared after line-ending
normalization only (CRLF to LF), they are equal, and the apply is skipped
entirely, returning the state of the first apply unchanged. -/
theorem idempotent_apply (s : EditorState) (c : Str) (t1 t2 now now2 : Nat)
    (hex : s.editorExists = true)
    (hidle : s.lastLocalEditAt + USER_IDLE_BEFORE_EXTERNAL_APPLY_MS ≤ now)
    (hidle2 : s.lastLocalEditAt + USER_IDLE_BEFORE_EXTERNAL_APPLY_MS ≤ now2) :
    applyPendingUpdate now2
        (updateEditorContent t2 c (applyPendingUpdate now (updateEditorContent t1 c s))) =
      applyPendingUpdate now (updateEditorContent t1 c s) ∧
    (applyPendingUpdate now (updateEditorContent t1 c s)).mutationCount
        ≤ s.mutationCount + 1 ∧
    (normalizeMarkdownForCompare c ≠ normalizeMarkdownForCompare s.lastKnownMarkdown →
      (applyPendingUpdate now (updateEditorContent t1 c s)).mutationCount
        = s.mutationCount + 1) := by
  have h150 : USER_IDLE_BEFORE_EXTERNAL_APPLY_MS = 150 := rfl
  have hidleA : ¬(now - s.lastLocalEditAt < USER_IDLE_BEFORE_EXTERNAL_APPLY_MS) := by
    omega
  have hidleB : ¬(now2 - s.lastLocalEditAt < USER_IDLE_BEFORE_EXTERNAL_APPLY_MS) := by
    omega
  rw [updateEditorContent_live t1 c s hex]
  by_cases heq : normalizeMarkdownForCompare c
      = normalizeMarkdownForCompare s.lastKnownMarkdown
  · rw [applyPendingUpdate_skip now c
      { s with pendingUpdate := some c, updateTimer := some (t1 + UPDATE_DEBOUNCE_MS) }
      hex rfl hidleA heq]
    refine ⟨?_, by simp, fun hne => absurd heq hne⟩
    rw [updateEditorContent_live t2 c
      { s with pendingUpdate := none, updateTimer := none } hex]
    exact applyPendingUpdate_skip now2 c
      { s with pendingUpdate := some c, updateTimer := some (t2 + UPDATE_DEBOUNCE_MS) }
      hex rfl hidleB heq
  · rw [applyPendingUpdate_commit now c
      { s with pendingUpdate := some c, updateTimer := some (t1 + UPDATE_DEBOUNCE_MS) }
      hex rfl hidleA heq]
    refine ⟨?_, by simp, fun _ => rfl⟩
    rw [updateEditorContent_live t2 c
      { s with pendingUpdate := none, updateTimer := none,
               isUpdatingFromExtension := false,
               currentFrontmatterRawBlock := (extractFrontmatter c).rawBlock,
               currentFrontmatter := (extractFrontmatter c).frontmatter,
               editorBody := ensureNoFrontmatterInEditorContent (extractFrontmatter c).content,
               mutationCount := s.mutationCount + 1,
               lastKnownMarkdown := c } hex]
    exact applyPendingUpdate_skip now2 c
      { s with pendingUpdate := some c, updateTimer := some (t2 + UPDATE_DEBOUNCE_MS),
               isUpdatingFromExtension := false,
               currentFrontmatterRawBlock := (extractFrontmatter c).rawBlock,
               currentFrontmatter := (extractFrontmatter c).frontmatter,
               editorBody := ensureNoFrontmatterInEditorContent (extractFrontmatter c).content,
               mutationCount := s.mutationCount + 1,
               lastKnownMarkdown := c }
      hex rfl hidleB rfl

/-- Witness for C5: delivering `"World"` twice to the sample session
(cache `"Hello"`) with quiescent commits mutates the editor once and the
second apply is a no-op. -/
theorem idempotent_apply_witness :
    sampleEditorState.editorExists = true ∧
    sampleEditorState.lastLocalEditAt + USER_IDLE_BEFORE_EXTERNAL_APPLY_MS ≤ 200 ∧
    sampleEditorState.lastLocalEditAt + USER_IDLE_BEFORE_EXTERNAL_APPLY_MS ≤ 400 ∧
    (applyPendingUpdate 400
        (updateEditorContent 300 "World".data
          (applyPendingUpdate 200 (updateEditorContent 100 "World".data sampleEditorState))) =
      applyPendingUpdate 200 (updateEditorContent 100 "World".data sampleEditorState) ∧
    (applyPendingUpdate 200
        (updateEditorContent 100 "World".data sampleEditorState)).mutationCount
        ≤ sampleEditorState.mutationCount + 1 ∧
    (normalizeMarkdownForCompare "World".data
        ≠ normalizeMarkdownForCompare sampleEditorState.lastKnownMarkdown →
      (applyPendingUpdate 200
          (updateEditorContent 100 "World".data sampleEditorState)).mutationCount
        = sampleEditorState.mutationCount + 1)) :=
  ⟨rfl, by decide, by decide,
    idempotent_apply sampleEditorState "World".data 100 300 200 400 rfl
      (by decide) (by decide)⟩

/-- C6 — Typing-priority deferral: when the inbound timer fires while
the elapsed time since the last local edit is below the 150 ms idle
threshold, the pending content is neither applied nor dropped — the timer
is rescheduled for exactly the remaining idle time (threshold minus
elapsed) with the pending slot and all other state untouched; and when
the rescheduled timer fires with no further local edit, the guard passes
and the pending content is applied (committed, since it differs from the
cache). -/
theorem typing_priority_deferral (s : EditorState) (c : Str) (now : Nat)
    (hex : s.editorExists = true) (hpend : s.pendingUpdate = some c)
    (hle : s.lastLocalEditAt ≤ now)
    (hlt : now < s.lastLocalEditAt + USER_IDLE_BEFORE_EXTERNAL_APPLY_MS)
    (hne : normalizeMarkdownForCompare c ≠ normalizeMarkdownForCompare s.lastKnownMarkdown) :
    applyPendingUpdate now s =
      { s with updateTimer := some (now +
          (USER_IDLE_BEFORE_EXTERNAL_APPLY_MS - (now - s.lastLocalEditAt))) } ∧
    (applyPendingUpdate now s).pendingUpdate = some c ∧
    applyPendingUpdate
        (now + (USER_IDLE_BEFORE_EXTERNAL_APPLY_MS - (now - s.lastLocalEditAt)))
        (applyPendingUpdate now s) =
      { s with pendingUpdate := none, updateTimer := none,
               isUpdatingFromExtension := false,
               currentFrontmatterRawBlock := (extractFrontmatter c).rawBlock,
               currentFrontmatter := (extractFrontmatter c).frontmatter,
               editorBody := ensureNoFrontmatterInEditorContent (extractFrontmatter c).content,
               mutationCount := s.mutationCount + 1,
               lastKnownMarkdown := c } := by
  have h150 : USER_IDLE_BEFORE_EXTERNAL_APPLY_MS = 150 := rfl
  have hlt2 : now - s.lastLocalEditAt < USER_IDLE_BEFORE_EXTERNAL_APPLY_MS := by omega
  have hdef := applyPendingUpdate_typing now c s hex hpend hlt2
  refine ⟨hdef, by rw [hdef]; exact hpend, ?_⟩
  rw [hdef]
  have hidle2 : ¬((now + (USER_IDLE_BEFORE_EXTERNAL_APPLY_MS - (now - s.lastLocalEditAt)))
      - s.lastLocalEditAt < USER_IDLE_BEFORE_EXTERNAL_APPLY_MS) := by omega
  rw [applyPendingUpdate_commit
    (now + (USER_IDLE_BEFORE_EXTERNAL_APPLY_MS - (now - s.lastLocalEditAt))) c
    { s with updateTimer := some (now +
        (USER_IDLE_BEFORE_EXTERNAL_APPLY_MS - (now - s.lastLocalEditAt))) }
    hex hpend hidle2 hne]

/-- Witness for C6: sample session typing at t = 100, timer fires at
t = 110 — deferred to exactly t = 250, pending slot intact. -/
theorem typing_priority_deferral_witness :
    ({ sampleEditorState with pendingUpdate := some "World".data,
                              lastLocalEditAt := 100 } : EditorState).editorExists = true ∧
    ({ sampleEditorState with pendingUpdate := some "World".data,
                              lastLocalEditAt := 100 } : EditorState).pendingUpdate
      = some "World".data ∧
    ({ sampleEditorState with pendingUpdate := some "World".data,
                              lastLocalEditAt := 100 } : EditorState).lastLocalEditAt ≤ 110 ∧
    110 < ({ sampleEditorState with pendingUpdate := some "World".data,
                                    lastLocalEditAt := 100 } : EditorState).lastLocalEditAt
        + USER_IDLE_BEFORE_EXTERNAL_APPLY_MS ∧
    applyPendingUpdate 110
        { sampleEditorState with pendingUpdate := some "World".data,
                                 lastLocalEditAt := 100 } =
      { sampleEditorState with pendingUpdate := some "World".data,
                               lastLocalEditAt := 100, updateTimer := some 250 } :=
  ⟨rfl, rfl, by decide, by decide,
    (typing_priority_deferral
      { sampleEditorState with pendingUpdate := some "World".data,
                               lastLocalEditAt := 100 } "World".data 110 rfl rfl
      (by decide) (by decide) (by decide)).1⟩

/-- C7 — Outbound debounce guarantee: across any burst of rich-editor
edits, each `sendOutgoingEdit` overwrites the pending outgoing content
and resets the single timer, so after the burst the slot holds exactly
the last content with the timer set relative to the last arrival; when
the timer fires, that content is posted as exactly one `edit` message to
the transport and the slot is cleared, and a subsequent fire emits
nothing — so no transmission is skipped when at least one edit occurred,
and only the last content of the burst is transmitted. -/
theorem outbound_debounce_guarantee (s : EditorState)
    (burst : List (Nat × Str)) (t : Nat) (c : Str) :
    ((burst ++ [(t, c)]).foldl (fun st p => sendOutgoingEdit p.1 p.2 st) s).pendingOutgoingEdit
        = some c ∧
    ((burst ++ [(t, c)]).foldl (fun st p => sendOutgoingEdit p.1 p.2 st) s).outgoingTimer
        = some (t + OUTGOING_EDIT_DEBOUNCE_MS) ∧
    fireOutgoingEditTimer
        ((burst ++ [(t, c)]).foldl (fun st p => sendOutgoingEdit p.1 p.2 st) s) =
      ({ (burst ++ [(t, c)]).foldl (fun st p => sendOutgoingEdit p.1 p.2 st) s with
          pendingOutgoingEdit := none, outgoingTimer := none },
        [WebviewOutMsg.edit c]) ∧
    (fireOutgoingEditTimer
        (fireOutgoingEditTimer
          ((burst ++ [(t, c)]).foldl (fun st p => sendOutgoingEdit p.1 p.2 st) s)).1).2
      = [] := by
  rw [List.foldl_append]
  simp [sendOutgoingEdit, fireOutgoingEditTimer]

/-- The inbound slot after a burst of `updateEditorContent` calls on a
live editor holds the last content, with the timer reset by the last
arrival; nothing else changes. -/
theorem foldl_updateEditorContent_last (t : Nat) (c : Str) :
    ∀ (prior : List (Nat × Str)) (s : EditorState), s.editorExists = true →
      (prior ++ [(t, c)]).foldl (fun st p => updateEditorContent p.1 p.2 st) s =
        { s with pendingUpdate := some c,
                 updateTimer := some (t + UPDATE_DEBOUNCE_MS) } := by
  intro prior
  induction prior with
  | nil =>
    intro s hex
    simp only [List.nil_append, List.foldl_cons, List.foldl_nil]
    exact updateEditorContent_live t c s hex
  | cons p rest ih =>
    intro s hex
    simp only [List.cons_append, List.foldl_cons]
    rw [updateEditorContent_live p.1 p.2 s hex,
      ih { s with pendingUpdate := some p.2,
                  updateTimer := some (p.1 + UPDATE_DEBOUNCE_MS) } hex]

/-- C8 — Inbound debounce coalescing: for inbound updates arriving
within the debounce window, each overwrites the single pending-inbound
slot and resets the timer; when the timer finally fires with the user
quiescent, exactly one apply occurs and it uses the content of the last
update (one rich-editor mutation, cache set to that content), and a
further timer fire is a no-op. -/
theorem inbound_debounce_coalescing (s : EditorState)
    (prior : List (Nat × Str)) (t : Nat) (c : Str) (tf : Nat)
    (hex : s.editorExists = true)
    (hidle : s.lastLocalEditAt + USER_IDLE_BEFORE_EXTERNAL_APPLY_MS ≤ tf)
    (hne : normalizeMarkdownForCompare c ≠ normalizeMarkdownForCompare s.lastKnownMarkdown) :
    ((prior ++ [(t, c)]).foldl (fun st p => updateEditorContent p.1 p.2 st) s).pendingUpdate
        = some c ∧
    ((prior ++ [(t, c)]).foldl (fun st p => updateEditorContent p.1 p.2 st) s).updateTimer
        = some (t + UPDATE_DEBOUNCE_MS) ∧
    applyPendingUpdate tf
        ((prior ++ [(t, c)]).foldl (fun st p => updateEditorContent p.1 p.2 st) s) =
      { s with pendingUpdate := none, updateTimer := none,
               isUpdatingFromExtension := false,
               currentFrontmatterRawBlock := (extractFrontmatter c).rawBlock,
               currentFrontmatter := (extractFrontmatter c).frontmatter,
               editorBody := ensureNoFrontmatterInEditorContent (extractFrontmatter c).content,
               mutationCount := s.mutationCount + 1,
               lastKnownMarkdown := c } ∧
    (∀ tf2 : Nat,
      applyPendingUpdate tf2
          (applyPendingUpdate tf
            ((prior ++ [(t, c)]).foldl (fun st p => updateEditorContent p.1 p.2 st) s)) =
        applyPendingUpdate tf
          ((prior ++ [(t, c)]).foldl (fun st p => updateEditorContent p.1 p.2 st) s)) := by
  have h150 : USER_IDLE_BEFORE_EXTERNAL_APPLY_MS = 150 := rfl
  have hidle2 : ¬(tf - s.lastLocalEditAt < USER_IDLE_BEFORE_EXTERNAL_APPLY_MS) := by
    omega
  rw [foldl_updateEditorContent_last t c prior s hex]
  have hcommit := applyPendingUpdate_commit tf c
    { s with pendingUpdate := some c, updateTimer := some (t + UPDATE_DEBOUNCE_MS) }
    hex rfl hidle2 hne
  refine ⟨rfl, rfl, by rw [hcommit], ?_⟩
  intro tf2
  rw [hcommit]
  exact applyPendingUpdate_noPending tf2 _ rfl

/-- Witness for C8: the spec scenario — updates `"A"` then `"B"` 5 ms
apart on the sample session; one apply with content `"B"`. -/
theorem inbound_debounce_coalescing_witness :
    sampleEditorState.editorExists = true ∧
    sampleEditorState.lastLocalEditAt + USER_IDLE_BEFORE_EXTERNAL_APPLY_MS ≤ 200 ∧
    normalizeMarkdownForCompare "B".data
        ≠ normalizeMarkdownForCompare sampleEditorState.lastKnownMarkdown ∧
    (([(0, "A".data)] ++ [(5, "B".data)]).foldl
        (fun (st : EditorState) (p : Nat × Str) => updateEditorContent p.1 p.2 st)
        sampleEditorState).pendingUpdate
      = some "B".data ∧
    (applyPendingUpdate 200
        (([(0, "A".data)] ++ [(5, "B".data)]).foldl
          (fun (st : EditorState) (p : Nat × Str) => updateEditorContent p.1 p.2 st)
          sampleEditorState)).lastKnownMarkdown
      = "B".data := by
  have h := inbound_debounce_coalescing sampleEditorState [(0, "A".data)] 5 "B".data 200
    rfl (by decide) (by decide)
  refine ⟨rfl, by decide, by decide, h.1, ?_⟩
  rw [h.2.2.1]

/-! ## HTML-injection safety lemmas -/

/-- Single-character global replace distributes over cons. -/
theorem replaceCharAll_cons (pat : Char) (repl : Str) (c : Char) (s : Str) :
    replaceCharAll pat repl (c :: s) =
      (if c = pat then repl else [c]) ++ replaceCharAll pat repl s := by
  simp [replaceCharAll]

/-- Single-character global replace distributes over append. -/
theorem replaceCharAll_append (pat : Char) (repl : Str) (a b : Str) :
    replaceCharAll pat repl (a ++ b) =
      replaceCharAll pat repl a ++ replaceCharAll pat repl b := by
  simp [replaceCharAll]

/-- `escapeHtml` distributes over append. -/
theorem escapeHtml_append (a b : Str) :
    escapeHtml (a ++ b) = escapeHtml a ++ escapeHtml b := by
  simp [escapeHtml, replaceCharAll_append]

/-- On one character, the five sequential passes act as the single-pass
translation `escChar` (the ampersand pass runs first, and no later pass
re-matches inside any replacement text). -/
theorem escapeHtml_singleton (c : Char) : escapeHtml [c] = escChar c := by
  by_cases h1 : c = '&'
  · subst h1; decide
  by_cases h2 : c = '<'
  · subst h2; decide
  by_cases h3 : c = '>'
  · subst h3; decide
  by_cases h4 : c = quoteChar
  · subst h4; decide
  by_cases h5 : c = aposChar
  · subst h5; decide
  simp [escapeHtml, replaceCharAll, escChar, h1, h2, h3, h4, h5]

/-- `escapeHtml` is exactly the single-pass translation. -/
theorem escapeHtml_eq_flatMap (s : Str) : escapeHtml s = s.flatMap escChar := by
  induction s with
  | nil => rfl
  | cons c rest ih =>
    have : (c :: rest) = [c] ++ rest := rfl
    rw [this, escapeHtml_append, ih, escapeHtml_singleton]
    simp

/-- A character that is neither forbidden nor an ampersand passes through
the safety check. -/
theorem htmlSafe_cons_plain (c : Char) (l : Str)
    (h1 : ¬(c = '<' ∨ c = '>' ∨ c = quoteChar ∨ c = aposChar)) (h2 : ¬(c = '&')) :
    htmlSafeFragment (c :: l) = htmlSafeFragment l := by
  simp [htmlSafeFragment, h1, h2]

/-- An ampersand head requires an entity tail. -/
theorem htmlSafe_cons_amp (l : Str) :
    htmlSafeFragment ('&' :: l) = (startsEntityTail l && htmlSafeFragment l) := by
  have h1 : ¬(('&' : Char) = '<' ∨ ('&' : Char) = '>' ∨ ('&' : Char) = quoteChar ∨
      ('&' : Char) = aposChar) := by decide
  simp only [htmlSafeFragment]
  rw [if_neg h1]
  simp

/-- Each character translation of `escapeHtml` is transparent to the
safety check: prepending it to any safe fragment stays safe. -/
theorem htmlSafe_escChar_append (c : Char) (l : Str) :
    htmlSafeFragment (escChar c ++ l) = htmlSafeFragment l := by
  by_cases h1 : c = '&'
  · subst h1
    show htmlSafeFragment ('&' :: 'a' :: 'm' :: 'p' :: ';' :: l) = htmlSafeFragment l
    rw [htmlSafe_cons_amp]
    rw [htmlSafe_cons_plain 'a' _ (by decide) (by decide),
      htmlSafe_cons_plain 'm' _ (by decide) (by decide),
      htmlSafe_cons_plain 'p' _ (by decide) (by decide),
      htmlSafe_cons_plain ';' _ (by decide) (by decide)]
    have hpre : startsEntityTail ('a' :: 'm' :: 'p' :: ';' :: l) = true := by
      simp [startsEntityTail, List.isPrefixOf]
    rw [hpre, Bool.true_and]
  by_cases h2 : c = '<'
  · subst h2
    show htmlSafeFragment ('&' :: 'l' :: 't' :: ';' :: l) = htmlSafeFragment l
    rw [htmlSafe_cons_amp]
    rw [htmlSafe_cons_plain 'l' _ (by decide) (by decide),
      htmlSafe_cons_plain 't' _ (by decide) (by decide),
      htmlSafe_cons_plain ';' _ (by decide) (by decide)]
    have hpre : startsEntityTail ('l' :: 't' :: ';' :: l) = true := by
      simp [startsEntityTail, List.isPrefixOf]
    rw [hpre, Bool.true_and]
  by_cases h3 : c = '>'
  · subst h3
    show htmlSafeFragment ('&' :: 'g' :: 't' :: ';' :: l) = htmlSafeFragment l
    rw [htmlSafe_cons_amp]
    rw [htmlSafe_cons_plain 'g' _ (by decide) (by decide),
      htmlSafe_cons_plain 't' _ (by decide) (by decide),
      htmlSafe_cons_plain ';' _ (by decide) (by decide)]
    have hpre : startsEntityTail ('g' :: 't' :: ';' :: l) = true := by
      simp [startsEntityTail, List.isPrefixOf]
    rw [hpre, Bool.true_and]
  by_cases h4 : c = quoteChar
  · subst h4
    show htmlSafeFragment ('&' :: 'q' :: 'u' :: 'o' :: 't' :: ';' :: l) = htmlSafeFragment l
    rw [htmlSafe_cons_amp]
    rw [htmlSafe_cons_plain 'q' _ (by decide) (by decide),
      htmlSafe_cons_plain 'u' _ (by decide) (by decide),
      htmlSafe_cons_plain 'o' _ (by decide) (by decide),
      htmlSafe_cons_plain 't' _ (by decide) (by decide),
      htmlSafe_cons_plain ';' _ (by decide) (by decide)]
    have hpre : startsEntityTail ('q' :: 'u' :: 'o' :: 't' :: ';' :: l) = true := by
      simp [startsEntityTail, List.isPrefixOf]
    rw [hpre, Bool.true_and]
  by_cases h5 : c = aposChar
  · subst h5
    show htmlSafeFragment ('&' :: '#' :: '3' :: '9' :: ';' :: l) = htmlSafeFragment l
    rw [htmlSafe_cons_amp]
    rw [htmlSafe_cons_plain '#' _ (by decide) (by decide),
      htmlSafe_cons_plain '3' _ (by decide) (by decide),
      htmlSafe_cons_plain '9' _ (by decide) (by decide),
      htmlSafe_cons_plain ';' _ (by decide) (by decide)]
    have hpre : startsEntityTail ('#' :: '3' :: '9' :: ';' :: l) = true := by
      simp [startsEntityTail, List.isPrefixOf]
    rw [hpre, Bool.true_and]
  · show htmlSafeFragment ((if c = '&' then "&amp;".data
      else if c = '<' then "&lt;".data
      else if c = '>' then "&gt;".data
      else if c = quoteChar then "&quot;".data
      else if c = aposChar then "&#39;".data
      else [c]) ++ l) = htmlSafeFragment l
    rw [if_neg h1, if_neg h2, if_neg h3, if_neg h4, if_neg h5]
    exact htmlSafe_cons_plain c l (by
      rintro (h | h | h | h) <;> exact absurd h (by assumption)) h1

/-- The escaped form of any string passes the safety check. -/
theorem htmlSafe_escapeHtml (s : Str) : htmlSafeFragment (escapeHtml s) = true := by
  rw [escapeHtml_eq_flatMap]
  induction s with
  | nil => rfl
  | cons c rest ih =>
    rw [List.flatMap_cons, htmlSafe_escChar_append]
    exact ih

/-- Character counts add over append. -/
theorem countChar_append (c : Char) (a b : Str) :
    countChar c (a ++ b) = countChar c a + countChar c b :=
  List.count_append c a b

/-- No character translation of `escapeHtml` contains a `<`. -/
theorem countLt_escChar (c : Char) : countChar '<' (escChar c) = 0 := by
  unfold escChar
  by_cases h1 : c = '&'
  · subst h1; decide
  by_cases h2 : c = '<'
  · subst h2; decide
  by_cases h3 : c = '>'
  · subst h3; decide
  by_cases h4 : c = quoteChar
  · subst h4; decide
  by_cases h5 : c = aposChar
  · subst h5; decide
  rw [if_neg h1, if_neg h2, if_neg h3, if_neg h4, if_neg h5]
  have hc : (('<' : Char) == c) = false :=
    beq_eq_false_iff_ne.mpr (fun hx => h2 hx.symm)
  simp [countChar, List.count_cons, hc, h2]

/-- Escaped text contains no `<` at all. -/
theorem countLt_escapeHtml (s : Str) : countChar '<' (escapeHtml s) = 0 := by
  rw [escapeHtml_eq_flatMap]
  induction s with
  | nil => rfl
  | cons c rest ih =>
    rw [List.flatMap_cons, countChar_append, countLt_escChar, ih]

/-- The scalar type class strings contain no `<`. -/
theorem countLt_typeClass (v : YamlValue) :
    countChar '<' (getScalarTypeClass v) = 0 := by
  cases v <;> rfl

/-- The indent class string contains no `<`. -/
theorem countLt_indentClass (depth : Nat) :
    countChar '<' (indentClass depth) = 0 := by
  have h : min depth 6 = 0 ∨ min depth 6 = 1 ∨ min depth 6 = 2 ∨ min depth 6 = 3 ∨
      min depth 6 = 4 ∨ min depth 6 = 5 ∨ min depth 6 = 6 := by omega
  rcases h with h | h | h | h | h | h | h <;> (simp only [indentClass, h]; decide)

/-- The scalar renderer emits exactly two tags, whatever the value: its
`title` attribute and text both go through `escapeHtml`. -/
theorem countLt_scalar (v : YamlValue) :
    countChar '<' (renderFrontmatterScalar v) = 2 := by
  simp only [renderFrontmatterScalar, countChar_append, countLt_escapeHtml,
    countLt_typeClass]
  decide

/-- The flattened chip spans emit exactly two tags per chip. -/
theorem countLt_chipList (values : List Str) :
    countChar '<' ((values.map (fun v =>
      "<span class=\"frontmatter-chip\">".data ++ escapeHtml v ++ "</span>".data)).flatten)
      = 2 * values.length := by
  induction values with
  | nil => rfl
  | cons v rest ih =>
    simp only [List.map_cons, List.flatten_cons, countChar_append,
      countLt_escapeHtml, ih, List.length_cons]
    have h1 : countChar '<' "<span class=\"frontmatter-chip\">".data = 1 := by decide
    have h2 : countChar '<' "</span>".data = 1 := by decide
    rw [h1, h2]
    ring

/-- The chips renderer emits exactly the structural tag count. -/
theorem countLt_chips (values : List Str) :
    countChar '<' (renderFrontmatterChips values) = chipsOpens values.length := by
  rcases values with _ | ⟨v, rest⟩
  · decide
  · rw [show renderFrontmatterChips (v :: rest) =
        "<div class=\"frontmatter-chips\">".data ++
          (((v :: rest)).map (fun w =>
            "<span class=\"frontmatter-chip\">".data ++ escapeHtml w ++ "</span>".data)).flatten ++
          "</div>".data from by simp [renderFrontmatterChips]]
    rw [countChar_append, countChar_append, countLt_chipList]
    rw [show chipsOpens (v :: rest).length = 2 + 2 * (v :: rest).length from by
      simp [chipsOpens]]
    have h1 : countChar '<' "<div class=\"frontmatter-chips\">".data = 1 := by decide
    have h2 : countChar '<' "</div>".data = 1 := by decide
    rw [h1, h2]
    omega

/-- The key markup emits exactly four tags; the key text is escaped. -/
theorem countLt_keyHtml (key : Str) :
    countChar '<' (renderFrontmatterKeyHtml key) = 4 := by
  simp only [renderFrontmatterKeyHtml, countChar_append, countLt_escapeHtml]
  decide

/-- Every `YamlValue` has positive size. -/
theorem yamlValue_sizeOf_pos (v : YamlValue) : 1 ≤ sizeOf v := by
  cases v <;> simp_arith

/-- The tag count of every rendered node is computed by the structural
`tagOpens…` functions — simultaneous strong induction on size over the
three mutually recursive renderers. -/
theorem renderCounts (n : Nat) :
    (∀ (v : YamlValue) (depth : Nat), sizeOf v ≤ n →
      countChar '<' (renderFrontmatterNode v depth) = tagOpensNode v) ∧
    (∀ (values : List YamlValue) (depth : Nat), sizeOf values ≤ n →
      countChar '<' (renderFrontmatterArrayItems values depth) = tagOpensArrayItems values) ∧
    (∀ (entries : List (Str × YamlValue)) (depth : Nat), sizeOf entries ≤ n →
      countChar '<' (renderFrontmatterObjectEntries entries depth)
        = tagOpensObjectEntries entries) := by
  induction n with
  | zero =>
    refine ⟨?_, ?_, ?_⟩
    · intro v depth h
      exact absurd h (by have := yamlValue_sizeOf_pos v; omega)
    · intro values depth h
      exact absurd h (by cases values <;> simp_arith)
    · intro entries depth h
      exact absurd h (by cases entries <;> simp_arith)
  | succ n ih =>
    obtain ⟨ihN, ihA, ihO⟩ := ih
    have hArr : ∀ (items : List YamlValue) (depth : Nat), sizeOf items ≤ n →
        countChar '<' (renderFrontmatterArray items depth) = tagOpensArray items := by
      intro items depth hsz
      rcases items with _ | ⟨item, rest⟩
      · rw [show renderFrontmatterArray [] depth =
            "<div class=\"frontmatter-empty frontmatter-empty-array\">[]</div>".data from by
          simp [renderFrontmatterArray]]
        rw [show tagOpensArray [] = 2 from by simp [tagOpensArray]]
        decide
      · rw [show renderFrontmatterArray (item :: rest) depth
            = renderFrontmatterArrayItems (item :: rest) depth from by
          simp [renderFrontmatterArray]]
        rw [show tagOpensArray (item :: rest) = tagOpensArrayItems (item :: rest) from by
          simp [tagOpensArray]]
        exact ihA (item :: rest) depth hsz
    have hObj : ∀ (entries : List (Str × YamlValue)) (depth : Nat), sizeOf entries ≤ n →
        countChar '<' (renderFrontmatterObject entries depth) = tagOpensObject entries := by
      intro entries depth hsz
      rcases entries with _ | ⟨e, rest⟩
      · rw [show renderFrontmatterObject [] depth =
            "<div class=\"frontmatter-empty frontmatter-empty-object\">\x7b\x7d</div>".data from by
          simp [renderFrontmatterObject]]
        rw [show tagOpensObject [] = 2 from by simp [tagOpensObject]]
        decide
      · rw [show renderFrontmatterObject (e :: rest) depth
            = renderFrontmatterObjectEntries (e :: rest) depth from by
          simp [renderFrontmatterObject]]
        rw [show tagOpensObject (e :: rest) = tagOpensObjectEntries (e :: rest) from by
          simp [tagOpensObject]]
        exact ihO (e :: rest) depth hsz
    refine ⟨?_, ?_, ?_⟩
    · intro v depth h
      cases v with
      | vArr items =>
        rw [show renderFrontmatterNode (.vArr items) depth
            = renderFrontmatterArray items depth from by simp [renderFrontmatterNode]]
        rw [show tagOpensNode (.vArr items) = tagOpensArray items from by
          simp [tagOpensNode]]
        exact hArr items depth (by simp_arith at h; try omega)
      | vObj entries =>
        rw [show renderFrontmatterNode (.vObj entries) depth
            = renderFrontmatterObject entries depth from by simp [renderFrontmatterNode]]
        rw [show tagOpensNode (.vObj entries) = tagOpensObject entries from by
          simp [tagOpensNode]]
        exact hObj entries depth (by simp_arith at h; try omega)
      | vUndefined =>
        rw [show renderFrontmatterNode .vUndefined depth
            = renderFrontmatterScalar .vUndefined from by simp [renderFrontmatterNode]]
        rw [show tagOpensNode .vUndefined = 2 from by simp [tagOpensNode]]
        exact countLt_scalar _
      | vNull =>
        rw [show renderFrontmatterNode .vNull depth
            = renderFrontmatterScalar .vNull from by simp [renderFrontmatterNode]]
        rw [show tagOpensNode .vNull = 2 from by simp [tagOpensNode]]
        exact countLt_scalar _
      | vBool b =>
        rw [show renderFrontmatterNode (.vBool b) depth
            = renderFrontmatterScalar (.vBool b) from by simp [renderFrontmatterNode]]
        rw [show tagOpensNode (.vBool b) = 2 from by simp [tagOpensNode]]
        exact countLt_scalar _
      | vNum m =>
        rw [show renderFrontmatterNode (.vNum m) depth
            = renderFrontmatterScalar (.vNum m) from by simp [renderFrontmatterNode]]
        rw [show tagOpensNode (.vNum m) = 2 from by simp [tagOpensNode]]
        exact countLt_scalar _
      | vStr t =>
        rw [show renderFrontmatterNode (.vStr t) depth
            = renderFrontmatterScalar (.vStr t) from by simp [renderFrontmatterNode]]
        rw [show tagOpensNode (.vStr t) = 2 from by simp [tagOpensNode]]
        exact countLt_scalar _
      | vDate iso =>
        rw [show renderFrontmatterNode (.vDate iso) depth
            = renderFrontmatterScalar (.vDate iso) from by simp [renderFrontmatterNode]]
        rw [show tagOpensNode (.vDate iso) = 2 from by simp [tagOpensNode]]
        exact countLt_scalar _
    · intro values depth h
      cases values with
      | nil =>
        rw [show renderFrontmatterArrayItems [] depth = [] from by
          simp [renderFrontmatterArrayItems]]
        rw [show tagOpensArrayItems [] = 0 from by simp [tagOpensArrayItems]]
        rfl
      | cons item rest =>
        rw [renderFrontmatterArrayItems, tagOpensArrayItems]
        have hpos := yamlValue_sizeOf_pos item
        have hitem : sizeOf item ≤ n := by simp_arith at h; omega
        have hrest : sizeOf rest ≤ n := by simp_arith at h; omega
        by_cases hn : (isObjectRecord item || isJsArray item) = true
        · simp only [hn, if_true, countChar_append, countLt_indentClass,
            ihN item (depth + 1) hitem, ihA rest depth hrest]
          have h1 : countChar '<' "<div class=\"frontmatter-array-item ".data = 1 := by
            decide
          have h2 : countChar '<'
              "\">\n        <span class=\"frontmatter-bullet\">-</span>\n        <div class=\"frontmatter-array-value\">".data
              = 3 := by decide
          have h3 : countChar '<' "</div>\n      </div>".data = 2 := by decide
          rw [h1, h2, h3]
          ring
        · simp only [hn, if_false, Bool.false_eq_true, countChar_append,
            countLt_indentClass, countLt_scalar, ihA rest depth hrest]
          have h1 : countChar '<' "<div class=\"frontmatter-array-item ".data = 1 := by
            decide
          have h2 : countChar '<'
              "\">\n        <span class=\"frontmatter-bullet\">-</span>\n        <div class=\"frontmatter-array-value\">".data
              = 3 := by decide
          have h3 : countChar '<' "</div>\n      </div>".data = 2 := by decide
          rw [h1, h2, h3]
    · intro entries depth h
      cases entries with
      | nil =>
        rw [show renderFrontmatterObjectEntries [] depth = [] from by
          simp [renderFrontmatterObjectEntries]]
        rw [show tagOpensObjectEntries [] = 0 from by simp [tagOpensObjectEntries]]
        rfl
      | cons e rest =>
        obtain ⟨key, value⟩ := e
        rw [renderFrontmatterObjectEntries, tagOpensObjectEntries]
        have hpos := yamlValue_sizeOf_pos value
        have hvalue : sizeOf value ≤ n := by simp_arith at h; omega
        have hrest : sizeOf rest ≤ n := by simp_arith at h; omega
        rcases htag : tagLikeStrings key value with _ | chipStrings
        · by_cases hn : (isObjectRecord value || isJsArray value) = true
          · simp only [htag, hn, if_true, countChar_append, countLt_indentClass,
              countLt_keyHtml, ihN value (depth + 1) hvalue, ihO rest depth hrest]
            have h1 : countChar '<' "<div class=\"frontmatter-property ".data = 1 := by
              decide
            have h2 : countChar '<'
                "\">\n          <div class=\"frontmatter-row\">\n            <div class=\"frontmatter-key-group\">".data
                = 2 := by decide
            have h3 : countChar '<'
                "</div>\n            <div class=\"frontmatter-value-group\">\n              <div class=\"frontmatter-children\">".data
                = 3 := by decide
            have h4 : countChar '<'
                "</div>\n            </div>\n          </div>\n        </div>".data
                = 4 := by decide
            rw [h1, h2, h3, h4]
            ring
          · simp only [htag, hn, if_false, Bool.false_eq_true, countChar_append,
              countLt_indentClass, countLt_keyHtml, countLt_scalar,
              ihO rest depth hrest]
            have h1 : countChar '<' "<div class=\"frontmatter-property ".data = 1 := by
              decide
            have h2 : countChar '<'
                "\">\n          <div class=\"frontmatter-row\">\n            <div class=\"frontmatter-key-group\">".data
                = 2 := by decide
            have h3 : countChar '<'
                "</div>\n            <div class=\"frontmatter-value-group\">".data
                = 2 := by decide
            have h4 : countChar '<' "</div>\n          </div>\n        </div>".data = 3 := by
              decide
            rw [h1, h2, h3, h4]
        · simp only [htag, countChar_append, countLt_indentClass, countLt_keyHtml,
            countLt_chips, ihO rest depth hrest]
          have h1 : countChar '<' "<div class=\"frontmatter-property ".data = 1 := by
            decide
          have h2 : countChar '<'
              "\">\n          <div class=\"frontmatter-row\">\n            <div class=\"frontmatter-key-group\">".data
              = 2 := by decide
          have h3 : countChar '<'
              "</div>\n            <div class=\"frontmatter-value-group\">".data
              = 2 := by decide
          have h4 : countChar '<' "</div>\n          </div>\n        </div>".data = 3 := by
            decide
          rw [h1, h2, h3, h4]
          ring

/-- C10 — HTML-injection safety of the preamble renderer: for every
input string, `escapeHtml` yields a fragment containing none of `<`, `>`,
`"`, `'`, with `&` occurring only as the start of one of the five
entities it introduces (`&amp;` `&lt;` `&gt;` `&quot;` `&#39;`); and
because every frontmatter key, scalar value and chip string is passed
through `escapeHtml` before being embedded, the number of `<` characters
(markup tags) of every rendered node, chip list, key fragment and scalar
equals a count computed by the structural `tagOpens…`/`chipsOpens`
functions, which never read the text of any embedded string — so no
frontmatter content can inject raw markup into the display tree. -/
theorem escapeHtml_injection_safety :
    (∀ s : Str, htmlSafeFragment (escapeHtml s) = true) ∧
    (∀ (v : YamlValue) (depth : Nat),
      countChar '<' (renderFrontmatterNode v depth) = tagOpensNode v) ∧
    (∀ values : List Str,
      countChar '<' (renderFrontmatterChips values) = chipsOpens values.length) ∧
    (∀ key : Str, countChar '<' (renderFrontmatterKeyHtml key) = 4) ∧
    (∀ v : YamlValue, countChar '<' (renderFrontmatterScalar v) = 2) :=
  ⟨htmlSafe_escapeHtml,
    fun v depth => (renderCounts (sizeOf v)).1 v depth (Nat.le_refl _),
    countLt_chips, countLt_keyHtml, countLt_scalar⟩

end MarkdownRender
